import Mathlib

/-!
# TodoList.js: the task store of the to-do list client

A shallow embedding of `src/src/TodoList.js`.  The component's `useState`
cells become the fields of `State`; every event handler becomes a function from
the state at the time of the event (and, for an `async` handler, the outcome of
the one HTTP request it awaits) to an `Outcome`: the state after the handler
has run and the list of HTTP requests it issued.
-/

namespace TodoList

/-- Identifier of a task, assigned by the remote resource. -/
abbrev TaskId := Nat

/-- A task record as the remote resource returns it. -/
structure Task where
  id : TaskId
  title : String
  completed : Bool
  deriving DecidableEq, Repr

/-- The `useState` cells of the `TodoList` component (lines 13-20). -/
structure State where
  tasks : List Task
  task : String
  editingId : Option TaskId
  editText : String
  filter : String
  darkMode : Bool
  loading : Bool
  error : String
  deriving DecidableEq, Repr

/-- An HTTP request sent through `axiosInstance`. -/
inductive Request where
  /-- Line 55: `post("/", { title, completed })`. -/
  | post (title : String) (completed : Bool)
  /-- Line 67: `delete("/" + id + "/")`. -/
  | delete (id : TaskId)
  /-- Line 92: `patch("/" + editingId + "/", { title })`; `editingId` may be `null`. -/
  | patchTitle (id : Option TaskId) (title : String)
  /-- Line 109: `patch("/" + id + "/", { completed })`. -/
  | patchCompleted (id : TaskId) (completed : Bool)
  deriving DecidableEq, Repr

/-- What running an event handler to completion produces. -/
structure Outcome where
  state : State
  requests : List Request
  deriving DecidableEq, Repr

/-- The code points `String.prototype.trim` strips: ECMAScript `WhiteSpace`
and `LineTerminator`. -/
def isJsWhiteSpace (c : Char) : Bool :=
  let n := c.toNat
  n == 0x09 || n == 0x0A || n == 0x0B || n == 0x0C || n == 0x0D || n == 0x20 ||
  n == 0xA0 || n == 0x1680 || (0x2000 ≤ n && n ≤ 0x200A) || n == 0x2028 ||
  n == 0x2029 || n == 0x202F || n == 0x205F || n == 0x3000 || n == 0xFEFF

/-- The characters of a string with leading and trailing white space removed. -/
def jsTrimChars (cs : List Char) : List Char :=
  ((cs.dropWhile isJsWhiteSpace).reverse.dropWhile isJsWhiteSpace).reverse

/-- `String.prototype.trim`. -/
def jsTrim (s : String) : String :=
  String.mk (jsTrimChars s.data)

/-- The test `!text.trim()` of lines 48 and 85: the trimmed text is the empty
string, the only falsy string. -/
def isBlank (s : String) : Bool :=
  (jsTrim s).data.isEmpty

/-- `addTask` (lines 47-63).  `resp` is the outcome of the awaited `post`:
`some r` when it resolves with `response.data = r`, `none` when it rejects. -/
def addTask (s : State) (resp : Option Task) : Outcome :=
  if isBlank s.task then
    { state := { s with error := "Task cannot be empty!" }, requests := [] }
  else
    match resp with
    | some r =>
      { state := { s with tasks := s.tasks ++ [r], task := "", error := "" },
        requests := [Request.post s.task false] }
    | none =>
      { state := { s with error := "Failed to add task. Please try again." },
        requests := [Request.post s.task false] }

/-- `removeTask` (lines 65-74).  `ok` tells whether the awaited `delete`
resolves. -/
def removeTask (s : State) (id : TaskId) (ok : Bool) : Outcome :=
  if ok then
    { state := { s with tasks := s.tasks.filter (fun t => t.id != id), error := "" },
      requests := [Request.delete id] }
  else
    { state := { s with error := "Failed to delete task. Please try again." },
      requests := [Request.delete id] }

/-- `editTask` (lines 76-82). -/
def editTask (s : State) (id : TaskId) : Outcome :=
  match s.tasks.find? (fun t => t.id == id) with
  | some taskToEdit =>
    { state := { s with editingId := some id, editText := taskToEdit.title }, requests := [] }
  | none => { state := s, requests := [] }

/-- The Cancel button's handler, `() => setEditingId(null)` (line 174). -/
def cancelEdit (s : State) : Outcome :=
  { state := { s with editingId := none }, requests := [] }

/-- `handleSave` (lines 84-102).  `ok` tells whether the awaited `patch`
resolves. -/
def handleSave (s : State) (ok : Bool) : Outcome :=
  if isBlank s.editText then
    { state := { s with error := "Task cannot be empty!" }, requests := [] }
  else if ok then
    { state :=
        { s with
          tasks := s.tasks.map
            (fun t => if some t.id == s.editingId then { t with title := s.editText } else t),
          editingId := none,
          error := "" },
      requests := [Request.patchTitle s.editingId s.editText] }
  else
    { state := { s with error := "Failed to update task. Please try again." },
      requests := [Request.patchTitle s.editingId s.editText] }

/-- `toggleCompletion` (lines 104-118).  When `find` yields `undefined`, reading
`.completed` throws inside the `try` block before any request is built, and the
`catch` branch runs.  `ok` tells whether the awaited `patch` resolves. -/
def toggleCompletion (s : State) (id : TaskId) (ok : Bool) : Outcome :=
  match s.tasks.find? (fun t => t.id == id) with
  | none =>
    { state := { s with error := "Failed to update task status. Please try again." },
      requests := [] }
  | some taskToToggle =>
    if ok then
      { state :=
          { s with
            tasks := s.tasks.map
              (fun t => if t.id == id then { t with completed := !t.completed } else t),
            error := "" },
        requests := [Request.patchCompleted id (!taskToToggle.completed)] }
    else
      { state := { s with error := "Failed to update task status. Please try again." },
        requests := [Request.patchCompleted id (!taskToToggle.completed)] }

/-- The filter buttons' handlers, `() => setFilter(mode)` (lines 149-151). -/
def setFilter (s : State) (mode : String) : Outcome :=
  { state := { s with filter := mode }, requests := [] }

/-- `filteredTasks` (lines 120-124). -/
def filteredTasks (s : State) : List Task :=
  s.tasks.filter fun t =>
    if s.filter == "Completed" then t.completed
    else if s.filter == "Pending" then !t.completed
    else true

/-- The state the component starts in once the initial load has settled. -/
def emptyState : State :=
  { tasks := [], task := "", editingId := none, editText := "", filter := "All",
    darkMode := false, loading := false, error := "" }

/-- The collection of the toggle scenario: one pending task. -/
def oneTask : State :=
  { emptyState with tasks := [{ id := 1, title := "A", completed := false }] }

/-- A collection of two tasks with the identifiers 1 and 2. -/
def twoTasks : State :=
  { emptyState with
    tasks := [{ id := 1, title := "A", completed := false },
              { id := 2, title := "B", completed := true }] }

/-- The update `toggleCompletion` maps over the collection. -/
def flipIf (id : TaskId) (t : Task) : Task :=
  if t.id == id then { t with completed := !t.completed } else t

/-- A state with one task, an earlier error message, task 1 in edit mode with
the draft "A2" and the input text "B". -/
def busyState : State :=
  { oneTask with task := "B", editingId := some 1, editText := "A2", error := "old message" }

/-! ## Auxiliary facts -/

theorem jsTrimChars_eq_nil_iff (cs : List Char) :
    jsTrimChars cs = [] ↔ ∀ c ∈ cs, isJsWhiteSpace c = true := by
  unfold jsTrimChars
  rw [List.reverse_eq_nil_iff, List.dropWhile_eq_nil_iff]
  constructor
  · intro h
    by_cases hd : cs.dropWhile isJsWhiteSpace = []
    · exact List.dropWhile_eq_nil_iff.mp hd
    · exfalso
      have hne := List.head_dropWhile_not isJsWhiteSpace cs hd
      have hmem : (cs.dropWhile isJsWhiteSpace).head hd ∈
          (cs.dropWhile isJsWhiteSpace).reverse :=
        List.mem_reverse.mpr (List.head_mem hd)
      rw [h _ hmem] at hne
      exact Bool.noConfusion hne
  · intro h
    rw [List.dropWhile_eq_nil_iff.mpr h]
    intro x hx
    simp at hx

theorem isBlank_iff (s : String) :
    isBlank s = true ↔ ∀ c ∈ s.data, isJsWhiteSpace c = true := by
  unfold isBlank jsTrim
  rw [List.isEmpty_iff]
  exact jsTrimChars_eq_nil_iff s.data

theorem jsTrim_eq_empty_iff (s : String) : jsTrim s = "" ↔ isBlank s = true := by
  unfold isBlank
  rw [List.isEmpty_iff]
  constructor
  · intro h
    rw [h]
  · intro h
    exact String.ext h

theorem isBlank_of_trim_ne (s : String) (h : jsTrim s ≠ "") : isBlank s = false := by
  cases hb : isBlank s with
  | false => rfl
  | true => exact absurd ((jsTrim_eq_empty_iff s).mpr hb) h

theorem find_of_mem (l : List Task) (id : TaskId) (h : ∃ t ∈ l, t.id = id) :
    ∃ t0, l.find? (fun t => t.id == id) = some t0 ∧ t0 ∈ l ∧ t0.id = id := by
  cases hf : l.find? (fun t => t.id == id) with
  | none =>
    obtain ⟨t, ht, hid⟩ := h
    have := List.find?_eq_none.mp hf t ht
    simp [hid] at this
  | some t0 =>
    refine ⟨t0, rfl, List.mem_of_find?_eq_some hf, ?_⟩
    have := List.find?_some hf
    simpa using this

theorem find_of_not_mem (l : List Task) (id : TaskId) (h : ∀ t ∈ l, t.id ≠ id) :
    l.find? (fun t => t.id == id) = none := by
  rw [List.find?_eq_none]
  intro t ht
  simpa using h t ht

theorem length_filter_ne (l : List Task) (id : TaskId) :
    (l.filter (fun t => t.id != id)).length + l.countP (fun t => t.id == id) = l.length := by
  induction l with
  | nil => rfl
  | cons a l ih =>
    by_cases h : a.id = id
    · simp [List.filter_cons, List.countP_cons, h] at ih ⊢
      omega
    · simp [List.filter_cons, List.countP_cons, h] at ih ⊢
      omega

theorem toggle_tasks (s : State) (id : TaskId) (t0 : Task)
    (hf : s.tasks.find? (fun t => t.id == id) = some t0) :
    toggleCompletion s id true =
      { state := { s with tasks := s.tasks.map (flipIf id), error := "" },
        requests := [Request.patchCompleted id (!t0.completed)] } := by
  simp only [toggleCompletion, hf, if_true]
  rfl

theorem flipIf_id (id : TaskId) (t : Task) : (flipIf id t).id = t.id := by
  unfold flipIf
  split <;> rfl

theorem flipIf_flipIf (id : TaskId) (t : Task) : flipIf id (flipIf id t) = t := by
  cases t with
  | mk tid title completed =>
    by_cases h : tid = id
    · simp [flipIf, h]
    · simp [flipIf, h]

theorem find_map_flipIf (l : List Task) (id : TaskId) :
    (l.map (flipIf id)).find? (fun t => t.id == id) =
      (l.find? (fun t => t.id == id)).map (flipIf id) := by
  induction l with
  | nil => rfl
  | cons a l ih =>
    by_cases h : a.id = id
    · simp [List.find?_cons, flipIf_id, h]
    · simp [List.find?_cons, flipIf_id, h, ih]

theorem eq_found_of_countP_one (l : List Task) (id : TaskId) (t0 : Task)
    (h : l.countP (fun t => t.id == id) = 1)
    (hf : l.find? (fun t => t.id == id) = some t0) :
    ∀ t ∈ l, t.id = id → t = t0 := by
  induction l with
  | nil => simp at h
  | cons a l ih =>
    by_cases ha : a.id = id
    · have h0 : l.countP (fun t => t.id == id) = 0 := by
        simp [List.countP_cons, ha] at h
        simpa using h
      have hnone : ∀ t ∈ l, t.id ≠ id := by
        intro t ht
        have := List.countP_eq_zero.mp h0 t ht
        simpa using this
      have hat : a = t0 := by
        simpa [List.find?_cons, ha] using hf
      intro t ht hid
      rcases List.mem_cons.mp ht with rfl | htl
      · exact hat
      · exact absurd hid (hnone t htl)
    · have h1 : l.countP (fun t => t.id == id) = 1 := by
        simpa [List.countP_cons, ha] using h
      have hf1 : l.find? (fun t => t.id == id) = some t0 := by
        simpa [List.find?_cons, ha] using hf
      intro t ht hid
      rcases List.mem_cons.mp ht with rfl | htl
      · exact absurd hid ha
      · exact ih h1 hf1 t htl hid

theorem countP_id_of_nodup (l : List Task) (id : TaskId)
    (hd : (l.map Task.id).Nodup) (hmem : ∃ t ∈ l, t.id = id) :
    l.countP (fun t => t.id == id) = 1 := by
  induction l with
  | nil =>
    obtain ⟨t, ht, -⟩ := hmem
    simp at ht
  | cons a l ih =>
    rw [List.map_cons, List.nodup_cons] at hd
    by_cases ha : a.id = id
    · have h0 : l.countP (fun t => t.id == id) = 0 := by
        rw [List.countP_eq_zero]
        intro t ht hp
        have hti : t.id = id := by simpa using hp
        exact hd.1 (List.mem_map.mpr ⟨t, ht, by rw [hti, ha]⟩)
      simp [List.countP_cons, ha, h0]
    · have hmem1 : ∃ t ∈ l, t.id = id := by
        obtain ⟨t, ht, hti⟩ := hmem
        rcases List.mem_cons.mp ht with rfl | htl
        · exact absurd hti ha
        · exact ⟨t, htl, hti⟩
      simpa [List.countP_cons, ha] using ih hd.2 hmem1

theorem map_id_flipIf (l : List Task) (id : TaskId) :
    (l.map (flipIf id)).map Task.id = l.map Task.id := by
  rw [List.map_map]
  apply List.map_congr_left
  intro t _
  exact flipIf_id id t

/-! ## C1: remove -/

/-- C1: in a collection whose identifiers are pairwise distinct, as the data
model requires, and for an identifier `id` present in it, a `removeTask id`
whose remote delete succeeds issues that one delete request and leaves a
collection with exactly one element fewer than before and with no element
whose identifier is `id`; what is left is a subsequence of the previous
collection, keeps every element with another identifier, and its identifiers
are still pairwise distinct. -/
theorem removeTask_success (s : State) (id : TaskId)
    (hd : (s.tasks.map Task.id).Nodup) (hmem : ∃ t ∈ s.tasks, t.id = id) :
    (removeTask s id true).requests = [Request.delete id] ∧
    (removeTask s id true).state.tasks.length + 1 = s.tasks.length ∧
    (∀ t ∈ (removeTask s id true).state.tasks, t.id ≠ id) ∧
    (removeTask s id true).state.tasks.Sublist s.tasks ∧
    (∀ t ∈ s.tasks, t.id ≠ id → t ∈ (removeTask s id true).state.tasks) ∧
    ((removeTask s id true).state.tasks.map Task.id).Nodup := by
  have h := countP_id_of_nodup s.tasks id hd hmem
  have hsub : (removeTask s id true).state.tasks.Sublist s.tasks := by
    simp only [removeTask, if_true]
    exact List.filter_sublist s.tasks
  refine ⟨rfl, ?_, ?_, hsub, ?_, ?_⟩
  · have := length_filter_ne s.tasks id
    simp only [removeTask, if_true]
    omega
  · intro t ht
    simp only [removeTask, if_true, List.mem_filter] at ht
    simpa using ht.2
  · intro t ht hne
    simp only [removeTask, if_true, List.mem_filter]
    exact ⟨ht, by simpa using hne⟩
  · exact hd.sublist (hsub.map Task.id)

/-- C1 at the two-task collection: removing task 1 leaves task 2 alone. -/
theorem removeTask_success_witness :
    ((twoTasks.tasks.map Task.id).Nodup ∧ ∃ t ∈ twoTasks.tasks, t.id = 1) ∧
    (removeTask twoTasks 1 true).state.tasks = [⟨2, "B", true⟩] ∧
    (removeTask twoTasks 1 true).requests = [Request.delete 1] ∧
    (removeTask twoTasks 1 true).state.tasks.length + 1 = twoTasks.tasks.length ∧
    (∀ t ∈ (removeTask twoTasks 1 true).state.tasks, t.id ≠ 1) ∧
    (removeTask twoTasks 1 true).state.tasks.Sublist twoTasks.tasks ∧
    (∀ t ∈ twoTasks.tasks, t.id ≠ 1 → t ∈ (removeTask twoTasks 1 true).state.tasks) ∧
    ((removeTask twoTasks 1 true).state.tasks.map Task.id).Nodup :=
  ⟨by decide, by decide, removeTask_success twoTasks 1 (by decide) (by decide)⟩

/-! ## C2: add -/

/-- C2: when the input text is non-empty after trimming and the create call
succeeds and returns a record `r`, carrying an identifier the remote resource
has assigned to no task of the collection (identifiers are unique in the data
model), `addTask` issues that one create request and leaves the previous
collection with `r` appended at its end, in which the identifier of `r`
appears exactly once; identifiers that were pairwise distinct stay so. -/
theorem addTask_success (s : State) (r : Task)
    (hne : jsTrim s.task ≠ "") (hfresh : ∀ t ∈ s.tasks, t.id ≠ r.id) :
    (addTask s (some r)).requests = [Request.post s.task false] ∧
    (addTask s (some r)).state.tasks = s.tasks ++ [r] ∧
    (addTask s (some r)).state.tasks.countP (fun t => t.id == r.id) = 1 ∧
    ((s.tasks.map Task.id).Nodup →
      ((addTask s (some r)).state.tasks.map Task.id).Nodup) := by
  have hb := isBlank_of_trim_ne s.task hne
  have h0 : s.tasks.countP (fun t => t.id == r.id) = 0 := by
    rw [List.countP_eq_zero]
    intro t ht
    simpa using hfresh t ht
  have htasks : (addTask s (some r)).state.tasks = s.tasks ++ [r] := by
    simp [addTask, hb]
  refine ⟨by simp [addTask, hb], htasks, ?_, ?_⟩
  · rw [htasks]
    simp [List.countP_append, h0]
  · intro hd
    rw [htasks, List.map_append, List.nodup_append]
    refine ⟨hd, by simp, ?_⟩
    intro a ha hb2
    obtain ⟨t, ht, hta⟩ := List.mem_map.mp ha
    have : a = r.id := by simpa using hb2
    exact hfresh t ht (by rw [hta, this])

/-- C2 at the one-task collection: the server returns a record with the new
identifier 2. -/
theorem addTask_success_witness :
    (jsTrim ({ oneTask with task := "B" } : State).task ≠ "" ∧
      ∀ t ∈ ({ oneTask with task := "B" } : State).tasks, t.id ≠ 2) ∧
    (addTask { oneTask with task := "B" } (some ⟨2, "B", false⟩)).requests =
      [Request.post "B" false] ∧
    (addTask { oneTask with task := "B" } (some ⟨2, "B", false⟩)).state.tasks =
      [⟨1, "A", false⟩, ⟨2, "B", false⟩] ∧
    (addTask { oneTask with task := "B" } (some ⟨2, "B", false⟩)).state.tasks.countP
      (fun t => t.id == 2) = 1 :=
  have h := addTask_success { oneTask with task := "B" } ⟨2, "B", false⟩
    (by decide) (by decide)
  ⟨by decide, h.1, h.2.1, h.2.2.1⟩

/-! ## C3: add with blank input -/

/-- C3: when the input text is empty or made of white space only, `addTask`
issues no request whatever the remote would answer, changes nothing in the
state but the error message, so the collection is unchanged, and sets the error
message to "Task cannot be empty!". -/
theorem addTask_blank (s : State) (resp : Option Task)
    (h : ∀ c ∈ s.task.data, isJsWhiteSpace c = true) :
    (addTask s resp).requests = [] ∧
    (addTask s resp).state.tasks = s.tasks ∧
    (addTask s resp).state.error = "Task cannot be empty!" ∧
    (addTask s resp).state = { s with error := "Task cannot be empty!" } := by
  have hb := (isBlank_iff s.task).mpr h
  simp [addTask, hb]

/-- C3 at a non-empty collection with the input text " \t", and any answer. -/
theorem addTask_blank_witness :
    (∀ c ∈ ({ oneTask with task := " \t" } : State).task.data, isJsWhiteSpace c = true) ∧
    (addTask { oneTask with task := " \t" } (some ⟨2, "B", false⟩)).requests = [] ∧
    (addTask { oneTask with task := " \t" } (some ⟨2, "B", false⟩)).state.tasks =
      oneTask.tasks ∧
    (addTask { oneTask with task := " \t" } (some ⟨2, "B", false⟩)).state.error =
      "Task cannot be empty!" ∧
    (addTask { oneTask with task := " \t" } (some ⟨2, "B", false⟩)).state =
      { oneTask with task := " \t", error := "Task cannot be empty!" } :=
  ⟨by decide, addTask_blank { oneTask with task := " \t" } (some ⟨2, "B", false⟩) (by decide)⟩

/-! ## C4: remote failure -/

/-- C4: when the remote call of `addTask`, `removeTask`, `handleSave` or
`toggleCompletion` is issued and fails, the collection is the one before the
operation and the error message is a fixed non-empty text, whatever the message
was before; `handleSave` also leaves the currently-editing identifier and the
draft text as they were. -/
theorem remote_failure (s : State) (id : TaskId) :
    (jsTrim s.task ≠ "" →
      (addTask s none).requests = [Request.post s.task false] ∧
      (addTask s none).state.tasks = s.tasks ∧
      (addTask s none).state.error = "Failed to add task. Please try again." ∧
      (addTask s none).state.error ≠ "") ∧
    ((removeTask s id false).requests = [Request.delete id] ∧
      (removeTask s id false).state.tasks = s.tasks ∧
      (removeTask s id false).state.error = "Failed to delete task. Please try again." ∧
      (removeTask s id false).state.error ≠ "") ∧
    (jsTrim s.editText ≠ "" →
      (handleSave s false).requests = [Request.patchTitle s.editingId s.editText] ∧
      (handleSave s false).state.tasks = s.tasks ∧
      (handleSave s false).state.error = "Failed to update task. Please try again." ∧
      (handleSave s false).state.error ≠ "" ∧
      (handleSave s false).state.editingId = s.editingId ∧
      (handleSave s false).state.editText = s.editText) ∧
    ((∃ t ∈ s.tasks, t.id = id) →
      (∃ t0, s.tasks.find? (fun t => t.id == id) = some t0 ∧
        (toggleCompletion s id false).requests =
          [Request.patchCompleted id (!t0.completed)]) ∧
      (toggleCompletion s id false).state.tasks = s.tasks ∧
      (toggleCompletion s id false).state.error =
        "Failed to update task status. Please try again." ∧
      (toggleCompletion s id false).state.error ≠ "") := by
  refine ⟨?_, ?_, ?_, ?_⟩
  · intro h
    have hb := isBlank_of_trim_ne s.task h
    simp [addTask, hb]
  · simp [removeTask]
  · intro h
    have hb := isBlank_of_trim_ne s.editText h
    simp [handleSave, hb]
  · intro h
    obtain ⟨t0, hf, -, -⟩ := find_of_mem s.tasks id h
    simp [toggleCompletion, hf]

/-- C4 at `busyState`, whose input text, draft text and task 1 make every one of
the four operations issue its request. -/
theorem remote_failure_witness :
    (jsTrim busyState.task ≠ "" ∧ jsTrim busyState.editText ≠ "" ∧
      ∃ t ∈ busyState.tasks, t.id = 1) ∧
    ((addTask busyState none).state.tasks = busyState.tasks ∧
      (addTask busyState none).state.error = "Failed to add task. Please try again.") ∧
    ((removeTask busyState 1 false).state.tasks = busyState.tasks ∧
      (removeTask busyState 1 false).state.error =
        "Failed to delete task. Please try again.") ∧
    ((handleSave busyState false).state.tasks = busyState.tasks ∧
      (handleSave busyState false).state.error = "Failed to update task. Please try again." ∧
      (handleSave busyState false).state.editingId = some 1) ∧
    ((toggleCompletion busyState 1 false).state.tasks = busyState.tasks ∧
      (toggleCompletion busyState 1 false).state.error =
        "Failed to update task status. Please try again.") :=
  have h := remote_failure busyState 1
  have ha := h.1 (by decide)
  have hs := h.2.2.1 (by decide)
  have ht := h.2.2.2 (by decide)
  ⟨by decide, ⟨ha.2.1, ha.2.2.1⟩, ⟨h.2.1.2.1, h.2.1.2.2.1⟩, ⟨hs.2.1, hs.2.2.1, hs.2.2.2.2.1⟩,
    ⟨ht.2.1, ht.2.2.1⟩⟩

/-! ## C5: toggling twice -/

/-- C5: when `id` is present, two `toggleCompletion id` in sequence whose remote
calls both succeed send first the inverse of the flag of the task the lookup
finds and then that flag itself, the task having the inverse flag in between,
and end with that task, and the whole collection, as they were at the start. -/
theorem toggleCompletion_twice (s : State) (id : TaskId) (h : ∃ t ∈ s.tasks, t.id = id) :
    ∃ t0, s.tasks.find? (fun t => t.id == id) = some t0 ∧
      (toggleCompletion s id true).requests = [Request.patchCompleted id (!t0.completed)] ∧
      (toggleCompletion s id true).state.tasks.find? (fun t => t.id == id) =
        some { t0 with completed := !t0.completed } ∧
      (toggleCompletion (toggleCompletion s id true).state id true).requests =
        [Request.patchCompleted id t0.completed] ∧
      (toggleCompletion (toggleCompletion s id true).state id true).state.tasks.find?
        (fun t => t.id == id) = some t0 ∧
      (toggleCompletion (toggleCompletion s id true).state id true).state.tasks = s.tasks := by
  obtain ⟨t0, hf, -, hid⟩ := find_of_mem s.tasks id h
  have h1 := toggle_tasks s id t0 hf
  have hflip : flipIf id t0 = { t0 with completed := !t0.completed } := by
    simp [flipIf, hid]
  have hf1 : (toggleCompletion s id true).state.tasks.find? (fun t => t.id == id) =
      some { t0 with completed := !t0.completed } := by
    rw [h1]
    show (s.tasks.map (flipIf id)).find? (fun t => t.id == id) = _
    rw [find_map_flipIf, hf, Option.map_some', hflip]
  have h2 := toggle_tasks (toggleCompletion s id true).state id _ hf1
  have htasks : (toggleCompletion (toggleCompletion s id true).state id true).state.tasks =
      s.tasks := by
    rw [h2]
    show ((toggleCompletion s id true).state.tasks.map (flipIf id)) = s.tasks
    rw [h1]
    show (s.tasks.map (flipIf id)).map (flipIf id) = s.tasks
    rw [List.map_map]
    conv_rhs => rw [← List.map_id s.tasks]
    apply List.map_congr_left
    intro t _
    exact flipIf_flipIf id t
  refine ⟨t0, hf, ?_, hf1, ?_, ?_, htasks⟩
  · rw [h1]
  · rw [h2]
    simp
  · rw [htasks]
    exact hf

/-- C5 at the one-task collection. -/
theorem toggleCompletion_twice_witness :
    (∃ t ∈ oneTask.tasks, t.id = 1) ∧
    ∃ t0, oneTask.tasks.find? (fun t => t.id == 1) = some t0 ∧
      (toggleCompletion oneTask 1 true).requests = [Request.patchCompleted 1 (!t0.completed)] ∧
      (toggleCompletion oneTask 1 true).state.tasks.find? (fun t => t.id == 1) =
        some { t0 with completed := !t0.completed } ∧
      (toggleCompletion (toggleCompletion oneTask 1 true).state 1 true).requests =
        [Request.patchCompleted 1 t0.completed] ∧
      (toggleCompletion (toggleCompletion oneTask 1 true).state 1 true).state.tasks.find?
        (fun t => t.id == 1) = some t0 ∧
      (toggleCompletion (toggleCompletion oneTask 1 true).state 1 true).state.tasks =
        oneTask.tasks :=
  ⟨by decide, toggleCompletion_twice oneTask 1 (by decide)⟩

/-! ## C6: the filtered view -/

/-- C6: `filteredTasks` is a subsequence of the collection under every filter;
under "All" it is the collection itself; under "Completed" every element of it
is completed and every subsequence of the collection made of completed tasks
is a subsequence of it, so it holds exactly the completed tasks in the
collection's order; under "Pending" the same with the tasks not completed. -/
theorem filteredTasks_subsequence (s : State) :
    (filteredTasks s).Sublist s.tasks ∧
    filteredTasks { s with filter := "All" } = s.tasks ∧
    ((∀ t, t ∈ filteredTasks { s with filter := "Completed" } ↔
        t ∈ s.tasks ∧ t.completed = true) ∧
      (filteredTasks { s with filter := "Completed" }).Sublist s.tasks ∧
      ∀ l : List Task, l.Sublist s.tasks → (∀ t ∈ l, t.completed = true) →
        l.Sublist (filteredTasks { s with filter := "Completed" })) ∧
    ((∀ t, t ∈ filteredTasks { s with filter := "Pending" } ↔
        t ∈ s.tasks ∧ t.completed = false) ∧
      (filteredTasks { s with filter := "Pending" }).Sublist s.tasks ∧
      ∀ l : List Task, l.Sublist s.tasks → (∀ t ∈ l, t.completed = false) →
        l.Sublist (filteredTasks { s with filter := "Pending" })) := by
  have hc : filteredTasks { s with filter := "Completed" } =
      s.tasks.filter (fun t => t.completed) := by
    simp [filteredTasks]
  have hp : filteredTasks { s with filter := "Pending" } =
      s.tasks.filter (fun t => !t.completed) := by
    simp [filteredTasks]
  refine ⟨List.filter_sublist s.tasks, ?_, ⟨?_, ?_, ?_⟩, ⟨?_, ?_, ?_⟩⟩
  · simp [filteredTasks]
  · intro t
    rw [hc, List.mem_filter]
  · rw [hc]
    exact List.filter_sublist s.tasks
  · intro l hl hall
    rw [hc]
    have hfl : l.filter (fun t => t.completed) = l :=
      List.filter_eq_self.mpr hall
    rw [← hfl]
    exact hl.filter _
  · intro t
    rw [hp, List.mem_filter]
    simp
  · rw [hp]
    exact List.filter_sublist s.tasks
  · intro l hl hall
    rw [hp]
    have hfl : l.filter (fun t => !t.completed) = l :=
      List.filter_eq_self.mpr (fun t ht => by simp [hall t ht])
    rw [← hfl]
    exact hl.filter _

/-! ## C7: toggling once -/

/-- C7: in a collection whose identifiers are pairwise distinct, as the data
model requires, and for an identifier `id` present in it, a
`toggleCompletion id` whose remote call succeeds sends the inverse of the
current flag of the task with that identifier and yields a collection of the
same length in which, position by position, the task with identifier `id`
keeps its id and title and has the flag flipped, equal to the value sent, and
every other task is unchanged; identifiers stay pairwise distinct.  From the
one-task collection of the scenario it gives the task completed, and the view
under "Pending" is then empty. -/
theorem toggleCompletion_success (s : State) (id : TaskId)
    (hd : (s.tasks.map Task.id).Nodup) (hpres : ∃ t ∈ s.tasks, t.id = id) :
    (∃ t0, s.tasks.find? (fun t => t.id == id) = some t0 ∧ t0 ∈ s.tasks ∧ t0.id = id ∧
      (toggleCompletion s id true).requests = [Request.patchCompleted id (!t0.completed)] ∧
      (toggleCompletion s id true).state.tasks.length = s.tasks.length ∧
      (∀ (i : Nat) (t : Task), s.tasks[i]? = some t →
        (toggleCompletion s id true).state.tasks[i]? =
          some (if t.id = id then (⟨t.id, t.title, !t.completed⟩ : Task) else t)) ∧
      (∀ t ∈ s.tasks, t.id = id → t = t0) ∧
      (∀ t ∈ (toggleCompletion s id true).state.tasks, t.id = id →
        t = (⟨t0.id, t0.title, !t0.completed⟩ : Task)) ∧
      ((toggleCompletion s id true).state.tasks.map Task.id).Nodup) ∧
    (toggleCompletion oneTask 1 true).state.tasks = [⟨1, "A", true⟩] ∧
    filteredTasks (setFilter (toggleCompletion oneTask 1 true).state "Pending").state = [] := by
  refine ⟨?_, by decide, by decide⟩
  have hu := countP_id_of_nodup s.tasks id hd hpres
  obtain ⟨t0, hf, hmem, hid⟩ := find_of_mem s.tasks id hpres
  have huniq := eq_found_of_countP_one s.tasks id t0 hu hf
  have h1 := toggle_tasks s id t0 hf
  refine ⟨t0, hf, hmem, hid, ?_, ?_, ?_, huniq, ?_, ?_⟩
  · rw [h1]
  · rw [h1]
    simp
  · intro i t hit
    rw [h1]
    show (s.tasks.map (flipIf id))[i]? = _
    rw [List.getElem?_map, hit, Option.map_some']
    by_cases h : t.id = id
    · simp [flipIf, h]
    · simp [flipIf, h]
  · intro t ht hti
    rw [h1] at ht
    obtain ⟨u, hu1, rfl⟩ := List.mem_map.mp ht
    rw [flipIf_id] at hti
    rw [huniq u hu1 hti]
    simp [flipIf, hid]
  · rw [h1]
    show ((s.tasks.map (flipIf id)).map Task.id).Nodup
    rw [map_id_flipIf]
    exact hd

/-- C7 at the two-task collection: only task 2 is flipped, to the value sent. -/
theorem toggleCompletion_success_witness :
    ((twoTasks.tasks.map Task.id).Nodup ∧ ∃ t ∈ twoTasks.tasks, t.id = 2) ∧
    (∃ t0, twoTasks.tasks.find? (fun t => t.id == 2) = some t0 ∧
      (toggleCompletion twoTasks 2 true).requests =
        [Request.patchCompleted 2 (!t0.completed)]) ∧
    (toggleCompletion twoTasks 2 true).requests = [Request.patchCompleted 2 false] ∧
    (toggleCompletion twoTasks 2 true).state.tasks = [⟨1, "A", false⟩, ⟨2, "B", false⟩] :=
  have h := toggleCompletion_success twoTasks 2 (by decide) (by decide)
  ⟨by decide, (let ⟨t0, hf, _, _, hr, _⟩ := h.1; ⟨t0, hf, hr⟩), by decide, by decide⟩

/-! ## C8: saving an edit -/

/-- C8: when `id` is the currently-editing identifier and is present, the draft
text is non-empty after trimming and the remote update succeeds, `handleSave`
sends the draft text as the new title of `id` and yields a collection of the
same length in which, position by position, a task with identifier `id` has
the draft text as its title and its id and flag unchanged, and every other
task is unchanged; edit mode is cleared. -/
theorem handleSave_success (s : State) (id : TaskId)
    (hed : s.editingId = some id) (hmem : ∃ t ∈ s.tasks, t.id = id)
    (hne : jsTrim s.editText ≠ "") :
    (handleSave s true).requests = [Request.patchTitle (some id) s.editText] ∧
    (handleSave s true).state.tasks.length = s.tasks.length ∧
    (∀ (i : Nat) (t : Task), s.tasks[i]? = some t →
      (handleSave s true).state.tasks[i]? =
        some (if t.id = id then (⟨t.id, s.editText, t.completed⟩ : Task) else t)) ∧
    (∃ t ∈ (handleSave s true).state.tasks, t.id = id ∧ t.title = s.editText) ∧
    (handleSave s true).state.editingId = none := by
  have hb := isBlank_of_trim_ne s.editText hne
  have hpt : ∀ (i : Nat) (t : Task), s.tasks[i]? = some t →
      (handleSave s true).state.tasks[i]? =
        some (if t.id = id then (⟨t.id, s.editText, t.completed⟩ : Task) else t) := by
    intro i t hit
    simp only [handleSave, hb, hed, if_true, Bool.false_eq_true, if_false]
    rw [List.getElem?_map, hit, Option.map_some']
    by_cases h : t.id = id
    · simp [h]
    · simp [h]
  refine ⟨?_, ?_, hpt, ?_, ?_⟩
  · simp [handleSave, hb, hed]
  · simp [handleSave, hb]
  · obtain ⟨t, ht, hid⟩ := hmem
    obtain ⟨i, hit⟩ := List.getElem?_of_mem ht
    have hres := hpt i t hit
    rw [if_pos hid] at hres
    exact ⟨⟨t.id, s.editText, t.completed⟩, List.getElem?_mem hres, hid, rfl⟩
  · simp [handleSave, hb]

/-- C8 at `busyState`: task 1 is renamed to the draft "A2". -/
theorem handleSave_success_witness :
    (busyState.editingId = some 1 ∧ (∃ t ∈ busyState.tasks, t.id = 1) ∧
      jsTrim busyState.editText ≠ "") ∧
    (handleSave busyState true).state.tasks = [⟨1, "A2", false⟩] ∧
    (handleSave busyState true).requests = [Request.patchTitle (some 1) busyState.editText] ∧
    (handleSave busyState true).state.editingId = none :=
  have h := handleSave_success busyState 1 (by decide) (by decide) (by decide)
  ⟨by decide, by decide, h.1, h.2.2.2.2⟩

/-! ## C9: beginning and cancelling an edit -/

/-- C9: when `id` is present, `editTask id` issues no request, sets the
currently-editing identifier to `id` and the draft text to the title of the
task the lookup finds, and leaves the collection unchanged; `cancelEdit` after
it issues no request, clears the currently-editing identifier and leaves the
collection, and so that task and its title, unchanged. -/
theorem editTask_then_cancelEdit (s : State) (id : TaskId) (h : ∃ t ∈ s.tasks, t.id = id) :
    ∃ t0, s.tasks.find? (fun t => t.id == id) = some t0 ∧ t0 ∈ s.tasks ∧ t0.id = id ∧
      (editTask s id).requests = [] ∧
      (editTask s id).state.editingId = some id ∧
      (editTask s id).state.editText = t0.title ∧
      (editTask s id).state.tasks = s.tasks ∧
      (cancelEdit (editTask s id).state).requests = [] ∧
      (cancelEdit (editTask s id).state).state.editingId = none ∧
      (cancelEdit (editTask s id).state).state.tasks = s.tasks ∧
      (cancelEdit (editTask s id).state).state.tasks.find? (fun t => t.id == id) = some t0 := by
  obtain ⟨t0, hf, hmem, hid⟩ := find_of_mem s.tasks id h
  refine ⟨t0, hf, hmem, hid, ?_⟩
  simp [editTask, cancelEdit, hf]

/-- C9 at the one-task collection. -/
theorem editTask_then_cancelEdit_witness :
    (∃ t ∈ oneTask.tasks, t.id = 1) ∧
    ∃ t0, oneTask.tasks.find? (fun t => t.id == 1) = some t0 ∧ t0 ∈ oneTask.tasks ∧ t0.id = 1 ∧
      (editTask oneTask 1).requests = [] ∧
      (editTask oneTask 1).state.editingId = some 1 ∧
      (editTask oneTask 1).state.editText = t0.title ∧
      (editTask oneTask 1).state.tasks = oneTask.tasks ∧
      (cancelEdit (editTask oneTask 1).state).requests = [] ∧
      (cancelEdit (editTask oneTask 1).state).state.editingId = none ∧
      (cancelEdit (editTask oneTask 1).state).state.tasks = oneTask.tasks ∧
      (cancelEdit (editTask oneTask 1).state).state.tasks.find? (fun t => t.id == 1) =
        some t0 :=
  ⟨by decide, editTask_then_cancelEdit oneTask 1 (by decide)⟩

/-! ## C10: an identifier that is not present -/

/-- C10: when no task of the collection carries `id`, `toggleCompletion id`
issues no request, whether or not the remote would have answered, leaves the
collection unchanged and sets the error message to "Failed to update task
status. Please try again."; `editTask id` issues no request and leaves the
whole state unchanged. -/
theorem absent_id (s : State) (id : TaskId) (ok : Bool) (h : ∀ t ∈ s.tasks, t.id ≠ id) :
    (toggleCompletion s id ok).requests = [] ∧
    (toggleCompletion s id ok).state.tasks = s.tasks ∧
    (toggleCompletion s id ok).state.error =
      "Failed to update task status. Please try again." ∧
    (toggleCompletion s id ok).state =
      { s with error := "Failed to update task status. Please try again." } ∧
    (editTask s id).requests = [] ∧
    (editTask s id).state = s := by
  have hf := find_of_not_mem s.tasks id h
  simp [toggleCompletion, editTask, hf]

/-- C10 at the one-task collection and the absent identifier 7. -/
theorem absent_id_witness :
    (∀ t ∈ oneTask.tasks, t.id ≠ 7) ∧
    (toggleCompletion oneTask 7 true).requests = [] ∧
    (toggleCompletion oneTask 7 true).state.tasks = oneTask.tasks ∧
    (toggleCompletion oneTask 7 true).state.error =
      "Failed to update task status. Please try again." ∧
    (toggleCompletion oneTask 7 true).state =
      { oneTask with error := "Failed to update task status. Please try again." } ∧
    (editTask oneTask 7).requests = [] ∧
    (editTask oneTask 7).state = oneTask :=
  ⟨by decide, absent_id oneTask 7 true (by decide)⟩

end TodoList
